import Mathlib

/-!
Verification of the libpq extension adapter (pq-ext-adapter.c).

The development shallowly embeds the two revisions of the adapter:
revision A is the file src/interfaces/libpq/pq-ext-adapter.c and
revision B is the later unnamed revision of the same file.  Both share
all entry points except the body of CSmapResultV2, which is embedded
twice (CSmapResultV2_A and CSmapResultV2_B).

Pointers into libpq-owned buffers are modelled by natural-number
identities; byte lengths by naturals.  Primitives of the underlying
client library and of the Rust transformation engine that are not part
of the adapter file are modelled from the specification and carry a
doc comment saying so.  Calls with observable effects (diagnostics,
releases, engine invocations) are recorded in an event trace.
-/

namespace PQExt

/-- Observable adapter events: diagnostics, releases, engine calls. -/
inductive Ev where
  | diag
  | fatalDiag
  | clearCache
  | freeDriver
  | finishAdaptee
  | releaseResult
  | dropMapped
  | mapV1Call
  | mapV2Call
deriving Repr, DecidableEq

/-! ### List helpers

`nthD`, `setNth`, `mapFrom` and `flatGrid` are the only list
combinators used by the embedding; their index lemmas are proved from
scratch so that every access mirrors a C array access. -/

/-- Read index `n` of a list, with default `d` out of bounds
(the shape of a C array read guarded by a bound). -/
def nthD : List α → Nat → α → α
  | [], _, d => d
  | x :: _, 0, _ => x
  | _ :: xs, n + 1, d => nthD xs n d

/-- Overwrite index `n` of a list; out of bounds writes are dropped. -/
def setNth : List α → Nat → α → List α
  | [], _, _ => []
  | _ :: xs, 0, a => a :: xs
  | x :: xs, n + 1, a => x :: setNth xs n a

/-- Map over a list with the index of each element, starting at `i`. -/
def mapFrom (f : Nat → α → α) : Nat → List α → List α
  | _, [] => []
  | i, x :: xs => f i x :: mapFrom f (i + 1) xs

/-- The row-major flattening of an `n × m` grid of values `f r c`,
exactly the order in which the adapter's nested loops push cells. -/
def flatGrid (f : Nat → Nat → α) : Nat → Nat → List α
  | 0, _ => []
  | n + 1, m => flatGrid f n m ++ (List.range m).map (f n)

/-! ### Data model: libpq result objects

A cell mirrors libpq's `PGresAttValue`: a null flag (libpq encodes it
as `len == NULL_LEN`), the identity of the byte buffer the cell points
at, and the reported byte length. -/

structure PGcell where
  isnull : Bool
  ptr : Nat
  len : Nat
deriving Repr, DecidableEq

/-- The all-null cell used as default for out-of-range reads and for
freshly grown rows. -/
def nullCell : PGcell := ⟨true, 0, 0⟩

/-- Mirror of libpq's `PGresAttDesc` (the fields the adapter touches). -/
structure PGresAttDesc where
  name : String
  tableid : Nat
  columnid : Nat
  format : Nat
  typid : Nat
  typlen : Nat
  atttypmod : Nat
deriving Repr, DecidableEq

/-- A descriptor with every field other than the name unset, exactly
the initializer CSmapResultV2 of revision B builds. -/
def blankDesc (n : String) : PGresAttDesc := ⟨n, 0, 0, 0, 0, 0, 0⟩

/-- Mirror of the parts of `PGresult` the adapter reads and writes:
overall status, the column descriptor list, and the tuple table. -/
structure PGresult where
  resultStatus : Nat
  attDescs : List PGresAttDesc
  rows : List (List PGcell)
deriving Repr, DecidableEq

/-- The cell of a tuple table at (row, col); all-null out of range. -/
def cellAt (rows : List (List PGcell)) (r c : Nat) : PGcell :=
  nthD (nthD rows r []) c nullCell

/-- Modelled from the spec: underlying client library result
introspection primitive, row count (`PQntuples`). -/
def PQntuples (res : PGresult) : Nat := res.rows.length

/-- Modelled from the spec: underlying client library result
introspection primitive, column count (`PQnfields`). -/
def PQnfields (res : PGresult) : Nat := res.attDescs.length

/-- Modelled from the spec: underlying client library per-cell null
test (`PQgetisnull`). -/
def PQgetisnull (res : PGresult) (row col : Nat) : Bool :=
  (cellAt res.rows row col).isnull

/-- Modelled from the spec: underlying client library per-cell length
(`PQgetlength`); 0 for a null cell, mirroring libpq's `NULL_LEN` test. -/
def PQgetlength (res : PGresult) (row col : Nat) : Nat :=
  if (cellAt res.rows row col).isnull then 0 else (cellAt res.rows row col).len

/-- Modelled from the spec: underlying client library per-cell value
(`PQgetvalue`), returning the identity of the cell's byte buffer. -/
def PQgetvalue (res : PGresult) (row col : Nat) : Nat :=
  (cellAt res.rows row col).ptr

/-- Modelled from the spec: underlying client library column name
accessor (`PQfname`). -/
def PQfname (res : PGresult) (col : Nat) : String :=
  (nthD res.attDescs col (blankDesc "")).name

/-! ### Protocol V1: the in-place mapping path (CSmapResult) -/

/-- Mirror of the C intermediate struct `PQEXTMappablePGResult`:
a data pointer (absent for a NULL cell) and a length. -/
structure PQEXTMappablePGResult where
  data : Option Nat
  len : Nat
deriving Repr, DecidableEq

/-- The flat cell list CSmapResult builds before calling the engine:
one entry per cell, columns outer and rows inner, with a null data
pointer for null cells and the reported length for every cell. -/
def csV1FlatList (res : PGresult) : List PQEXTMappablePGResult :=
  flatGrid
    (fun col row =>
      { data := if PQgetisnull res row col then none else some (PQgetvalue res row col),
        len := PQgetlength res row col })
    (PQnfields res) (PQntuples res)

/-- The flat list as the specification sentence for claim C3 words it:
only the (pointer, length) pairs of the non-null cells, columns outer
and rows inner. -/
def specV1FlatList (res : PGresult) : List (Nat × Nat) :=
  (flatGrid (fun col row => (row, col)) (PQnfields res) (PQntuples res)).filterMap
    (fun rc =>
      if PQgetisnull res rc.1 rc.2 then none
      else some (PQgetvalue res rc.1 rc.2, PQgetlength res rc.1 rc.2))

/-- The second walk of CSmapResult: every non-null cell's reported
length is overwritten with the engine-supplied length found at the
cell's own flat index (columns outer, rows inner); null flags, data
pointers and the shape are untouched. -/
def applyV1Lens (res : PGresult) (lens : List Nat) : PGresult :=
  { res with
    rows := mapFrom (fun row cells =>
      mapFrom (fun col cell =>
        if cell.isnull then cell
        else { cell with len := nthD lens (col * PQntuples res + row) cell.len }) 0 cells) 0 res.rows }

/-- Embedding of `CSmapResult` (identical in both revisions).  The V1
engine call `PQEXTmapResult` is abstracted as a function from the flat
list to a success flag plus the lengths it wrote back into the list;
`allocOk` is the outcome of the `malloc` for the intermediate array
(POSIX malloc sets `errno` to ENOMEM on failure, so the failure branch
prints the FATAL diagnostic and returns NULL). -/
def CSmapResult (engine : List PQEXTMappablePGResult → Bool × List Nat)
    (allocOk : Bool) (result : Option PGresult) : Option PGresult × List Ev :=
  match result with
  | none => (none, [])
  | some res =>
    if allocOk then
      let toMap := csV1FlatList res
      let mapped := engine toMap
      (some (if mapped.1 then applyV1Lens res mapped.2 else res), [Ev.mapV1Call])
    else
      (none, [Ev.fatalDiag])

/-! ### Protocol V2: the reconstruction path (CSmapResultV2)

Revision A (src/interfaces/libpq/pq-ext-adapter.c) and revision B (the
later unnamed revision) build the engine request the same way but
differ in how the new result is assembled and in what they release. -/

/-- The row-major nullable pointer grid both revisions push to the
engine: rows outer, columns inner, a null value for every null cell
and the cell's buffer pointer otherwise. -/
def csV2Values (res : PGresult) : List (Option Nat) :=
  flatGrid
    (fun row col =>
      if PQgetisnull res row col then none else some (PQgetvalue res row col))
    (PQntuples res) (PQnfields res)

/-- Engine response as revision A reads it (`PQExtPgResult_t` of
pq-ext-v2.h, fields `col_num` and `values`): a new column count and a
row-major grid of nullable (buffer, length) values. -/
structure PQExtPgResultA where
  col_num : Nat
  values : List (Option (Nat × Nat))
deriving Repr, DecidableEq

/-- Engine response as revision B reads it (fields `column_names` and
`values`): new column names and a row-major grid of nullable
(buffer, length) values. -/
structure PQExtPgResultB where
  column_names : List String
  values : List (Option (Nat × Nat))
deriving Repr, DecidableEq

/-- The request revision B sends: the original column names plus the
nullable pointer grid. -/
structure PQExtRequestB where
  column_names : List String
  values : List (Option Nat)
deriving Repr, DecidableEq

/-- Revision B's request: column names pushed first, then the grid. -/
def csV2RequestB (res : PGresult) : PQExtRequestB :=
  { column_names := (List.range (PQnfields res)).map (fun col => PQfname res col),
    values := csV2Values res }

/-- Modelled from the spec: underlying client library result
construction primitive `PQmakeEmptyPGresult`: an empty result carrying
the given overall status. -/
def PQmakeEmptyPGresult (status : Nat) : PGresult :=
  { resultStatus := status, attDescs := [], rows := [] }

/-- Modelled from the spec: underlying client library result
construction primitive `PQsetResultAttrs`: installs the first `n`
descriptors of the supplied list as the column descriptor list. -/
def PQsetResultAttrs (res : PGresult) (n : Nat) (descs : List PGresAttDesc) : PGresult :=
  { res with attDescs := descs.take n }

/-- Modelled from the spec: underlying client library result
construction primitive `PQsetvalue`: stores a copy of the given bytes
as cell (row, col), growing the tuple table with all-null rows as
needed; cells never stored stay null. -/
def PQsetvalue (res : PGresult) (row col : Nat) (p l : Nat) : PGresult :=
  let width := res.attDescs.length
  let base :=
    if row < res.rows.length then res.rows
    else res.rows ++ List.replicate (row + 1 - res.rows.length) (List.replicate width nullCell)
  { res with rows := setNth base row (setNth (nthD base row []) col ⟨false, p, l⟩) }

/-- The cell-assignment inner loop shared by both revisions: for
columns 0..c-1 of row `r`, read the engine grid at `newN * r + col`
and store every non-null value into the new result. -/
def assignRow (vals : List (Option (Nat × Nat))) (newN r : Nat) : Nat → PGresult → PGresult
  | 0, acc => acc
  | c + 1, acc =>
    let acc2 := assignRow vals newN r c acc
    match nthD vals (newN * r + c) none with
    | some v => PQsetvalue acc2 r c v.1 v.2
    | none => acc2

/-- The cell-assignment outer loop: rows 0..n-1 in order. -/
def assignRows (vals : List (Option (Nat × Nat))) (newN : Nat) : Nat → PGresult → PGresult
  | 0, acc => acc
  | n + 1, acc => assignRow vals newN n newN (assignRows vals newN n acc)

/-- Embedding of `CSmapResultV2` of revision A
(src/interfaces/libpq/pq-ext-adapter.c).  The engine call
`pqext_map_result_v2` is abstracted as a function of the column count
and the pointer grid.  On a non-zero new column count it builds a new
result whose descriptors are copied from the ORIGINAL result's
descriptor array (`PQsetResultAttrs(new_result, new_num_cols,
result->attDescs)`), assigns the non-null cells, and returns it with
no release of the original result or of the mapped value set (the
`free` calls are commented out); on a zero count it returns the
original result, again releasing nothing. -/
def CSmapResultV2_A (engine : Nat → List (Option Nat) → PQExtPgResultA)
    (result : Option PGresult) : Option PGresult × List Ev :=
  match result with
  | none => (none, [])
  | some res =>
    let numRows := PQntuples res
    let numCols := PQnfields res
    let resultsMapped := engine numCols (csV2Values res)
    let newNumCols := resultsMapped.col_num
    if newNumCols ≠ 0 then
      let newResult := PQsetResultAttrs (PQmakeEmptyPGresult res.resultStatus) newNumCols res.attDescs
      let newResult := assignRows resultsMapped.values newNumCols numRows newResult
      (some newResult, [Ev.mapV2Call])
    else
      (some res, [Ev.mapV2Call])

/-- Embedding of `CSmapResultV2` of revision B (the later unnamed
revision).  On a non-zero new column count it builds fresh descriptors
whose names are copied from the engine response and whose other fields
are zeroed, assigns the non-null cells, releases the original result
(`PQclear`) and drops the mapped value set before returning the new
result; on a zero count it drops the mapped value set and returns the
original result.  (The C copies each name into a buffer allocated one
byte short of the terminator; the embedding models the copied string
value, not the heap overflow.) -/
def CSmapResultV2_B (engine : PQExtRequestB → PQExtPgResultB)
    (result : Option PGresult) : Option PGresult × List Ev :=
  match result with
  | none => (none, [])
  | some res =>
    let numRows := PQntuples res
    let resultMapped := engine (csV2RequestB res)
    let newNumCols := resultMapped.column_names.length
    if newNumCols ≠ 0 then
      let newAttDescs := resultMapped.column_names.map blankDesc
      let newResult := PQsetResultAttrs (PQmakeEmptyPGresult res.resultStatus) newNumCols newAttDescs
      let newResult := assignRows resultMapped.values newNumCols numRows newResult
      (some newResult, [Ev.mapV2Call, Ev.releaseResult, Ev.dropMapped])
    else
      (some res, [Ev.mapV2Call, Ev.dropMapped])

/-! ### Lifecycle: connections, Extension State, PQconnect*/PQfinish -/

/-- The opaque engine-owned Extension State handle (`PQEXTDriver`);
the adapter only stores and forwards it. -/
abbrev PQEXTDriver := Nat

/-- The connection fields the adapter reads: status flag and logical
database name (what the underlying connect primitive delivers). -/
structure PGconnBase where
  statusBad : Bool
  dbName : String
deriving Repr, DecidableEq

/-- A connection as the adapter sees it: the underlying handle plus
the `pgExtState` field the adapter attaches its state to.  A freshly
established connection has no state attached. -/
structure PGconn where
  base : PGconnBase
  pgExtState : Option PQEXTDriver
deriving Repr, DecidableEq

/-- Embedding of `PQconnectdbParams`: delegate to the underlying
connect primitive (abstracted as `adaptee`, with the keyword/value
arguments folded into one opaque string); when a connection comes back
whose status is not CONNECTION_BAD, attach the outcome of `PQEXTinit`
keyed by the connection's database name (abstracted as `ini`). -/
def PQconnectdbParams (adaptee : String → Option PGconnBase)
    (ini : String → Option PQEXTDriver) (conninfo : String) : Option PGconn :=
  match adaptee conninfo with
  | none => none
  | some b =>
    if !b.statusBad then some ⟨b, ini b.dbName⟩ else some ⟨b, none⟩

/-- Embedding of `PQconnectdb`: same shape as `PQconnectdbParams`. -/
def PQconnectdb (adaptee : String → Option PGconnBase)
    (ini : String → Option PQEXTDriver) (conninfo : String) : Option PGconn :=
  match adaptee conninfo with
  | none => none
  | some b =>
    if !b.statusBad then some ⟨b, ini b.dbName⟩ else some ⟨b, none⟩

/-- Embedding of `PQconnectStart`: same shape as `PQconnectdbParams`. -/
def PQconnectStart (adaptee : String → Option PGconnBase)
    (ini : String → Option PQEXTDriver) (conninfo : String) : Option PGconn :=
  match adaptee conninfo with
  | none => none
  | some b =>
    if !b.statusBad then some ⟨b, ini b.dbName⟩ else some ⟨b, none⟩

/-- Embedding of `PQfinish`: if an Extension State is attached,
release it via the engine teardown (`PQEXTfree`) and then delegate to
the underlying teardown; the returned trace is the ordered list of
teardown events. -/
def PQfinish (conn : Option PGconn) : List Ev :=
  match conn with
  | some c =>
    match c.pgExtState with
    | some _ => [Ev.freeDriver, Ev.finishAdaptee]
    | none => [Ev.finishAdaptee]
  | none => [Ev.finishAdaptee]

/-! ### Query interceptor entry points -/

/-- The argument bundle of `PQsendQueryParams` after the connection. -/
structure QueryParamsArgs where
  command : String
  nParams : Nat
  paramTypes : List Nat
  paramValues : List (Option String)
  paramLengths : List Nat
  paramFormats : List Nat
  resultFormat : Nat
deriving Repr, DecidableEq

/-- The argument bundle of `PQsendPrepare` after the connection. -/
structure PrepareArgs where
  stmtName : String
  query : String
  nParams : Nat
  paramTypes : List Nat
deriving Repr, DecidableEq

/-- The argument bundle of `PQsendQueryPrepared` after the connection. -/
structure QueryPreparedArgs where
  stmtName : String
  nParams : Nat
  paramValues : List (Option String)
  paramLengths : List Nat
  paramFormats : List Nat
  resultFormat : Nat
deriving Repr, DecidableEq

/-- Modelled from the spec: the Rust engine hook `PQEXTmapQuery`
(not under src/).  With no Extension State it emits a non-fatal
diagnostic and forwards the query unmodified to the supplied
underlying entry point, returning whatever it returns; with a state it
forwards the possibly-rewritten query (the rewrite abstracted as
`rw0`). -/
def PQEXTmapQuery (rw0 : String → String) (st : Option PQEXTDriver)
    (adaptee : String → Int) (query : String) : Int × List Ev :=
  match st with
  | none => (adaptee query, [Ev.diag])
  | some _ => (adaptee (rw0 query), [])

/-- Embedding of `PQsendQuery`: always delegates to `PQEXTmapQuery`
with the connection's (possibly absent) state; the C dereferences the
connection unconditionally, so the model takes a non-null one. -/
def PQsendQuery (rw0 : String → String) (adaptee : PGconn → String → Int)
    (conn : PGconn) (query : String) : Int × List Ev :=
  PQEXTmapQuery rw0 conn.pgExtState (adaptee conn) query

/-- Embedding of `PQsendQueryParams`: with a state attached, hand the
arguments to the engine hook `PQEXTmapQueryParams` (modelled from the
spec as forwarding the possibly-rewritten bundle to the underlying
entry point); otherwise emit the non-fatal diagnostic and forward the
bundle unmodified. -/
def PQsendQueryParams (rwP : QueryParamsArgs → QueryParamsArgs)
    (adaptee : Option PGconn → QueryParamsArgs → Int)
    (conn : Option PGconn) (args : QueryParamsArgs) : Int × List Ev :=
  match conn with
  | some c =>
    match c.pgExtState with
    | some _ => (adaptee (some c) (rwP args), [])
    | none => (adaptee (some c) args, [Ev.diag])
  | none => (adaptee none args, [Ev.diag])

/-- Embedding of `PQsendPrepare`: same structure as
`PQsendQueryParams` over the prepare argument bundle. -/
def PQsendPrepare (rwP : PrepareArgs → PrepareArgs)
    (adaptee : Option PGconn → PrepareArgs → Int)
    (conn : Option PGconn) (args : PrepareArgs) : Int × List Ev :=
  match conn with
  | some c =>
    match c.pgExtState with
    | some _ => (adaptee (some c) (rwP args), [])
    | none => (adaptee (some c) args, [Ev.diag])
  | none => (adaptee none args, [Ev.diag])

/-- Embedding of `PQsendQueryPrepared`: same structure as
`PQsendQueryParams` over the prepared-execute argument bundle. -/
def PQsendQueryPrepared (rwP : QueryPreparedArgs → QueryPreparedArgs)
    (adaptee : Option PGconn → QueryPreparedArgs → Int)
    (conn : Option PGconn) (args : QueryPreparedArgs) : Int × List Ev :=
  match conn with
  | some c =>
    match c.pgExtState with
    | some _ => (adaptee (some c) (rwP args), [])
    | none => (adaptee (some c) args, [Ev.diag])
  | none => (adaptee none args, [Ev.diag])

/-! ### Result fetch entry point -/

/-- Embedding of `PQgetResult` of revision A: the fetched result
(outcome of the underlying next-result primitive) is a parameter.
With a connection carrying an Extension State: on the end-of-stream
sentinel, clear the per-statement value cache (success abstracted as
`clearOk`), emitting a diagnostic when the clear fails, and return the
sentinel; otherwise map the result through `CSmapResultV2_A`.  With no
connection or no state, warn and return the fetched result as is. -/
def PQgetResult_A (clearOk : Bool) (engine : Nat → List (Option Nat) → PQExtPgResultA)
    (conn : Option PGconn) (fetched : Option PGresult) : Option PGresult × List Ev :=
  match conn with
  | some c =>
    match c.pgExtState with
    | some _ =>
      match fetched with
      | none => (none, Ev.clearCache :: (if clearOk then [] else [Ev.diag]))
      | some res => CSmapResultV2_A engine (some res)
    | none => (fetched, [Ev.diag])
  | none => (fetched, [Ev.diag])

/-- Embedding of `PQgetResult` of revision B: identical shape, the
non-sentinel result is mapped through `CSmapResultV2_B`. -/
def PQgetResult_B (clearOk : Bool) (engine : PQExtRequestB → PQExtPgResultB)
    (conn : Option PGconn) (fetched : Option PGresult) : Option PGresult × List Ev :=
  match conn with
  | some c =>
    match c.pgExtState with
    | some _ =>
      match fetched with
      | none => (none, Ev.clearCache :: (if clearOk then [] else [Ev.diag]))
      | some res => CSmapResultV2_B engine (some res)
    | none => (fetched, [Ev.diag])
  | none => (fetched, [Ev.diag])

/-- The null invariant: positions whose engine grid entry is null hold
a null cell. -/
def NullInv (vals : List (Option (Nat × Nat))) (newN : Nat)
    (rows : List (List PGcell)) : Prop :=
  ∀ r c, nthD vals (newN * r + c) none = none → (cellAt rows r c).isnull = true


/-! ### Concrete results and engines used by witnesses and counterexamples -/

/-- A 1 by 1 result holding a single null cell. -/
def resNull11 : PGresult := ⟨2, [blankDesc "a"], [[⟨true, 0, 0⟩]]⟩

/-- A 1 by 1 result holding a single non-null cell (buffer 5, length 3). -/
def resOne11 : PGresult := ⟨2, [blankDesc "a"], [[⟨false, 5, 3⟩]]⟩

/-- A 2 by 1 result with two non-null cells whose descriptor carries a
source table id (7). -/
def resTwoRows : PGresult :=
  ⟨2, [⟨"a", 7, 0, 0, 0, 0, 0⟩], [[⟨false, 5, 3⟩], [⟨false, 6, 3⟩]]⟩

/-- A 2 by 1 result with one non-null and one null cell. -/
def resMixed : PGresult := ⟨2, [blankDesc "a"], [[⟨false, 5, 3⟩], [⟨true, 0, 0⟩]]⟩

/-- A V2 engine (revision A shape) answering with zero columns. -/
def engZeroA : Nat → List (Option Nat) → PQExtPgResultA := fun _ _ => ⟨0, []⟩

/-- A V2 engine (revision B shape) answering with zero columns. -/
def engZeroB : PQExtRequestB → PQExtPgResultB := fun _ => ⟨[], []⟩

/-- A V2 engine (revision A shape) answering with one column and one
non-null value. -/
def engOneA : Nat → List (Option Nat) → PQExtPgResultA := fun _ _ => ⟨1, [some (9, 2)]⟩

/-- A V2 engine (revision B shape) answering with one column named b
and one non-null value. -/
def engOneB : PQExtRequestB → PQExtPgResultB := fun _ => ⟨["b"], [some (9, 2)]⟩

/-- A V2 engine (revision A shape) answering with one column, one
non-null value for row 0 and a null value for row 1. -/
def engNullRowA : Nat → List (Option Nat) → PQExtPgResultA := fun _ _ => ⟨1, [some (9, 2), none]⟩

/-- A V2 engine (revision B shape) answering with one column named b
and a single null value. -/
def engNullB : PQExtRequestB → PQExtPgResultB := fun _ => ⟨["b"], [none]⟩

/-- A V1 engine that succeeds and reports length 2 for every entry. -/
def engV1len2 : List PQEXTMappablePGResult → Bool × List Nat :=
  fun l => (true, l.map (fun _ => 2))

/-! ### Lemmas about the V2 assignment loops -/

theorem nthD_nil (n : Nat) (d : α) : nthD [] n d = d := rfl

theorem nthD_append_left (l₁ l₂ : List α) (i : Nat) (d : α) (h : i < l₁.length) :
    nthD (l₁ ++ l₂) i d = nthD l₁ i d := by
  induction l₁ generalizing i with
  | nil => simp at h
  | cons x xs ih =>
    cases i with
    | zero => rfl
    | succ j => exact ih j (by simpa using h)

theorem nthD_append_right (l₁ l₂ : List α) (i : Nat) (d : α) :
    nthD (l₁ ++ l₂) (l₁.length + i) d = nthD l₂ i d := by
  induction l₁ with
  | nil => simp [nthD]
  | cons x xs ih => simpa [List.length_cons, Nat.succ_add] using ih

theorem nthD_append_right2 (l₁ l₂ : List α) (i j : Nat) (d : α) (h : i = l₁.length + j) :
    nthD (l₁ ++ l₂) i d = nthD l₂ j d := by
  subst h
  exact nthD_append_right l₁ l₂ j d

theorem nthD_replicate (n i : Nat) (a d : α) (h : i < n) :
    nthD (List.replicate n a) i d = a := by
  induction n generalizing i with
  | zero => omega
  | succ m ih =>
    cases i with
    | zero => rfl
    | succ j => exact ih j (by omega)

theorem length_setNth (l : List α) (n : Nat) (a : α) :
    (setNth l n a).length = l.length := by
  induction l generalizing n with
  | nil => rfl
  | cons x xs ih =>
    cases n with
    | zero => rfl
    | succ m => simp [setNth, ih]

theorem nthD_setNth_self (l : List α) (n : Nat) (a d : α) (h : n < l.length) :
    nthD (setNth l n a) n d = a := by
  induction l generalizing n with
  | nil => simp at h
  | cons x xs ih =>
    cases n with
    | zero => rfl
    | succ m => exact ih m (by simpa using h)

theorem nthD_setNth_ne (l : List α) (n i : Nat) (a d : α) (h : i ≠ n) :
    nthD (setNth l n a) i d = nthD l i d := by
  induction l generalizing n i with
  | nil => rfl
  | cons x xs ih =>
    cases n with
    | zero =>
      cases i with
      | zero => exact absurd rfl h
      | succ j => rfl
    | succ m =>
      cases i with
      | zero => rfl
      | succ j => exact ih m j (by omega)

theorem length_mapFrom (f : Nat → α → α) (i : Nat) (l : List α) :
    (mapFrom f i l).length = l.length := by
  induction l generalizing i with
  | nil => rfl
  | cons x xs ih => simp [mapFrom, ih]

theorem nthD_mapFrom (f : Nat → α → α) (i : Nat) (l : List α) (j : Nat) (d : α)
    (h : j < l.length) :
    nthD (mapFrom f i l) j d = f (i + j) (nthD l j d) := by
  induction l generalizing i j with
  | nil => simp at h
  | cons x xs ih =>
    cases j with
    | zero => simp [mapFrom, nthD]
    | succ k =>
      have hk : k < xs.length := by simpa using h
      have harith : i + 1 + k = i + (k + 1) := by omega
      simpa [mapFrom, nthD, harith] using ih (i + 1) k hk

theorem nthD_map_range (f : Nat → α) (m c : Nat) (d : α) (h : c < m) :
    nthD ((List.range m).map f) c d = f c := by
  induction m generalizing c with
  | zero => omega
  | succ k ih =>
    rw [List.range_succ, List.map_append]
    rcases Nat.lt_or_ge c k with hck | hck
    · rw [nthD_append_left _ _ _ _ (by simpa using hck)]
      exact ih c hck
    · have hc : c = k := by omega
      subst hc
      rw [nthD_append_right2 _ _ _ 0 _ (by simp)]
      rfl

theorem length_flatGrid (f : Nat → Nat → α) (n m : Nat) :
    (flatGrid f n m).length = n * m := by
  induction n with
  | zero => simp [flatGrid]
  | succ k ih => simp [flatGrid, ih, Nat.succ_mul]

theorem nthD_flatGrid (f : Nat → Nat → α) (n m r c : Nat) (d : α)
    (hr : r < n) (hc : c < m) :
    nthD (flatGrid f n m) (r * m + c) d = f r c := by
  induction n with
  | zero => omega
  | succ k ih =>
    simp only [flatGrid]
    rcases Nat.lt_or_ge r k with hrk | hrk
    · have hidx : r * m + c < (flatGrid f k m).length := by
        rw [length_flatGrid]
        have h1 : r * m + c < (r + 1) * m := by rw [Nat.succ_mul]; omega
        have h2 : (r + 1) * m ≤ k * m := Nat.mul_le_mul_right m hrk
        omega
      rw [nthD_append_left _ _ _ _ hidx]
      exact ih hrk
    · have hrk2 : r = k := by omega
      subst hrk2
      rw [nthD_append_right2 _ _ _ c _ (by rw [length_flatGrid])]
      exact nthD_map_range _ _ _ _ hc


theorem nthD_ge_length (l : List α) (i : Nat) (d : α) (h : l.length ≤ i) :
    nthD l i d = d := by
  induction l generalizing i with
  | nil => rfl
  | cons x xs ih =>
    cases i with
    | zero => simp at h
    | succ j => exact ih j (by simpa using h)

theorem nthD_replicate_self (n i : Nat) (a : α) : nthD (List.replicate n a) i a = a := by
  rcases Nat.lt_or_ge i n with h | h
  · exact nthD_replicate n i a a h
  · exact nthD_ge_length _ _ _ (by simpa using h)

theorem PQsetvalue_attDescs (res : PGresult) (r c p l : Nat) :
    (PQsetvalue res r c p l).attDescs = res.attDescs := rfl

theorem PQsetvalue_status (res : PGresult) (r c p l : Nat) :
    (PQsetvalue res r c p l).resultStatus = res.resultStatus := rfl

theorem PQsetvalue_rows_length (res : PGresult) (r c p l : Nat) :
    (PQsetvalue res r c p l).rows.length = max res.rows.length (r + 1) := by
  unfold PQsetvalue
  by_cases h : r < res.rows.length
  · simp [h, length_setNth]
    omega
  · simp [h, length_setNth]
    omega

theorem cellAt_nil (r c : Nat) : cellAt [] r c = nullCell := rfl

/-- Growing the tuple table and storing cell (r0, c0) leaves every
other position's cell unchanged (grown rows are all-null, matching the
all-null out-of-range default). -/
theorem cellAt_PQsetvalue_ne (res : PGresult) (r0 c0 p l r c : Nat)
    (hne : r ≠ r0 ∨ c ≠ c0) :
    cellAt (PQsetvalue res r0 c0 p l).rows r c = cellAt res.rows r c := by
  unfold PQsetvalue cellAt
  set w := res.attDescs.length with hw
  set base :=
    if r0 < res.rows.length then res.rows
    else res.rows ++ List.replicate (r0 + 1 - res.rows.length) (List.replicate w nullCell)
    with hbase
  have hbaselen : res.rows.length ≤ base.length ∧ r0 < base.length := by
    rw [hbase]
    by_cases h : r0 < res.rows.length
    · simp [h]
    · simp [h]
      omega
  have hsame : ∀ i, nthD (nthD base i []) c nullCell = nthD (nthD res.rows i []) c nullCell := by
    intro i
    rw [hbase]
    by_cases h : r0 < res.rows.length
    · simp [h]
    · simp only [h, if_false]
      rcases Nat.lt_or_ge i res.rows.length with hi | hi
      · rw [nthD_append_left _ _ _ _ hi]
      · rw [nthD_ge_length res.rows i [] hi]
        rw [nthD_append_right2 _ _ _ (i - res.rows.length) _ (by omega)]
        rw [nthD_nil]
        rcases Nat.lt_or_ge (i - res.rows.length) (r0 + 1 - res.rows.length) with hj | hj
        · rw [nthD_replicate _ _ _ _ hj, nthD_replicate_self]
        · rw [nthD_ge_length
            (List.replicate (r0 + 1 - res.rows.length) (List.replicate w nullCell))
            (i - res.rows.length) [] (by simp only [List.length_replicate]; omega)]
          rw [nthD_nil]
  rcases hne with hr | hc
  · simp only
    rw [nthD_setNth_ne _ _ _ _ _ hr]
    exact hsame r
  · by_cases hr : r = r0
    · subst hr
      simp only
      rw [nthD_setNth_self _ _ _ _ hbaselen.2]
      rw [nthD_setNth_ne _ _ _ _ _ hc]
      exact hsame r
    · simp only
      rw [nthD_setNth_ne _ _ _ _ _ hr]
      exact hsame r

theorem assignRow_attDescs (vals : List (Option (Nat × Nat))) (newN r c : Nat)
    (acc : PGresult) :
    (assignRow vals newN r c acc).attDescs = acc.attDescs := by
  induction c with
  | zero => rfl
  | succ k ih =>
    cases h : nthD vals (newN * r + k) none with
    | none => simpa [assignRow, h] using ih
    | some v => simp [assignRow, h, PQsetvalue_attDescs, ih]

theorem assignRow_status (vals : List (Option (Nat × Nat))) (newN r c : Nat)
    (acc : PGresult) :
    (assignRow vals newN r c acc).resultStatus = acc.resultStatus := by
  induction c with
  | zero => rfl
  | succ k ih =>
    cases h : nthD vals (newN * r + k) none with
    | none => simpa [assignRow, h] using ih
    | some v => simp [assignRow, h, PQsetvalue_status, ih]

theorem assignRows_attDescs (vals : List (Option (Nat × Nat))) (newN n : Nat)
    (init : PGresult) :
    (assignRows vals newN n init).attDescs = init.attDescs := by
  induction n with
  | zero => rfl
  | succ k ih => simp [assignRows, assignRow_attDescs, ih]

theorem assignRows_status (vals : List (Option (Nat × Nat))) (newN n : Nat)
    (init : PGresult) :
    (assignRows vals newN n init).resultStatus = init.resultStatus := by
  induction n with
  | zero => rfl
  | succ k ih => simp [assignRows, assignRow_status, ih]

theorem assignRow_rows_length_bounds (vals : List (Option (Nat × Nat))) (newN r c : Nat)
    (acc : PGresult) :
    acc.rows.length ≤ (assignRow vals newN r c acc).rows.length ∧
    (assignRow vals newN r c acc).rows.length ≤ max acc.rows.length (r + 1) := by
  induction c with
  | zero =>
    constructor
    · exact Nat.le_refl _
    · simp only [assignRow]
      omega
  | succ k ih =>
    obtain ⟨ih1, ih2⟩ := ih
    cases h : nthD vals (newN * r + k) none with
    | none =>
      simp only [assignRow, h]
      exact ⟨ih1, ih2⟩
    | some v =>
      have hset := PQsetvalue_rows_length (assignRow vals newN r k acc) r k v.1 v.2
      simp only [assignRow, h]
      rw [hset]
      omega

theorem assignRow_rows_length_of_hit (vals : List (Option (Nat × Nat))) (newN r c : Nat)
    (acc : PGresult)
    (hex : ∃ c2, c2 < c ∧ (nthD vals (newN * r + c2) none).isSome) :
    (assignRow vals newN r c acc).rows.length = max acc.rows.length (r + 1) := by
  induction c with
  | zero =>
    obtain ⟨c2, hc2, _⟩ := hex
    omega
  | succ k ih =>
    cases h : nthD vals (newN * r + k) none with
    | some v =>
      have hb := assignRow_rows_length_bounds vals newN r k acc
      have hset := PQsetvalue_rows_length (assignRow vals newN r k acc) r k v.1 v.2
      simp only [assignRow, h]
      rw [hset]
      omega
    | none =>
      have hex2 : ∃ c2, c2 < k ∧ (nthD vals (newN * r + c2) none).isSome := by
        obtain ⟨c2, hc2, hs⟩ := hex
        refine ⟨c2, ?_, hs⟩
        rcases Nat.lt_or_ge c2 k with h1 | h1
        · exact h1
        · exfalso
          have : c2 = k := by omega
          subst this
          rw [h] at hs
          simp at hs
      simp only [assignRow, h]
      exact ih hex2

theorem assignRows_rows_length (vals : List (Option (Nat × Nat))) (newN n : Nat)
    (init : PGresult) (hinit : init.rows.length = 0)
    (hall : ∀ r, r < n → ∃ c, c < newN ∧ (nthD vals (newN * r + c) none).isSome) :
    (assignRows vals newN n init).rows.length = n := by
  induction n with
  | zero => simpa [assignRows] using hinit
  | succ k ih =>
    have hk : (assignRows vals newN k init).rows.length = k :=
      ih (fun r hr => hall r (by omega))
    have hhit := assignRow_rows_length_of_hit vals newN k newN
      (assignRows vals newN k init) (hall k (by omega))
    simp only [assignRows]
    rw [hhit, hk]
    omega

theorem assignRow_nullInv (vals : List (Option (Nat × Nat))) (newN r c : Nat)
    (acc : PGresult) (h : NullInv vals newN acc.rows) :
    NullInv vals newN (assignRow vals newN r c acc).rows := by
  induction c with
  | zero => exact h
  | succ k ih =>
    cases hk : nthD vals (newN * r + k) none with
    | none => simpa [assignRow, hk] using ih
    | some v =>
      simp only [assignRow, hk]
      intro r1 c1 hnone
      have hne : r1 ≠ r ∨ c1 ≠ k := by
        by_contra hcon
        push_neg at hcon
        obtain ⟨e1, e2⟩ := hcon
        subst e1
        subst e2
        rw [hnone] at hk
        cases hk
      rw [cellAt_PQsetvalue_ne _ _ _ _ _ _ _ hne]
      exact ih r1 c1 hnone

theorem assignRows_nullInv (vals : List (Option (Nat × Nat))) (newN n : Nat)
    (init : PGresult) (h : NullInv vals newN init.rows) :
    NullInv vals newN (assignRows vals newN n init).rows := by
  induction n with
  | zero => exact h
  | succ k ih => exact assignRow_nullInv _ _ _ _ _ ih

/-! ### Trace helpers -/

theorem CSmapResultV2_A_trace (engine : Nat → List (Option Nat) → PQExtPgResultA)
    (res : PGresult) : (CSmapResultV2_A engine (some res)).2 = [Ev.mapV2Call] := by
  simp only [CSmapResultV2_A]
  split <;> rfl

theorem CSmapResultV2_B_trace (engine : PQExtRequestB → PQExtPgResultB) (res : PGresult) :
    (CSmapResultV2_B engine (some res)).2 =
      if (engine (csV2RequestB res)).column_names.length ≠ 0 then
        [Ev.mapV2Call, Ev.releaseResult, Ev.dropMapped]
      else
        [Ev.mapV2Call, Ev.dropMapped] := by
  simp only [CSmapResultV2_B]
  split <;> simp_all

theorem take_length_eq (l : List α) : l.take l.length = l := by
  induction l with
  | nil => rfl
  | cons x xs ih => simp [ih]

theorem CSmapResultV2_A_some (engine : Nat → List (Option Nat) → PQExtPgResultA)
    (res : PGresult) (hnz : (engine (PQnfields res) (csV2Values res)).col_num ≠ 0) :
    (CSmapResultV2_A engine (some res)).1 =
      some (assignRows (engine (PQnfields res) (csV2Values res)).values
        (engine (PQnfields res) (csV2Values res)).col_num (PQntuples res)
        (PQsetResultAttrs (PQmakeEmptyPGresult res.resultStatus)
          (engine (PQnfields res) (csV2Values res)).col_num res.attDescs)) := by
  simp only [CSmapResultV2_A]
  rw [if_pos hnz]

theorem CSmapResultV2_B_some (engine : PQExtRequestB → PQExtPgResultB)
    (res : PGresult) (hnz : (engine (csV2RequestB res)).column_names.length ≠ 0) :
    (CSmapResultV2_B engine (some res)).1 =
      some (assignRows (engine (csV2RequestB res)).values
        (engine (csV2RequestB res)).column_names.length (PQntuples res)
        (PQsetResultAttrs (PQmakeEmptyPGresult res.resultStatus)
          (engine (csV2RequestB res)).column_names.length
          ((engine (csV2RequestB res)).column_names.map blankDesc))) := by
  simp only [CSmapResultV2_B]
  rw [if_pos hnz]

/-! ### Claim theorems -/

/-- Claim C2 (confirmed): for each of the four query-issuing entry
points, with no Extension State attached to the connection, the call
emits one non-fatal diagnostic and forwards its arguments unmodified
to the corresponding underlying entry point, returning exactly what
that entry point returns.  (For PQsendQuery the degraded branch lives
in the engine hook PQEXTmapQuery, modelled from the spec.) -/
theorem PQsend_degraded_forwarding :
    ∀ (b : PGconnBase) (rw0 : String → String) (adQ : PGconn → String → Int) (q : String)
      (rwP : QueryParamsArgs → QueryParamsArgs)
      (adP : Option PGconn → QueryParamsArgs → Int) (ap : QueryParamsArgs)
      (rwR : PrepareArgs → PrepareArgs)
      (adR : Option PGconn → PrepareArgs → Int) (ar : PrepareArgs)
      (rwE : QueryPreparedArgs → QueryPreparedArgs)
      (adE : Option PGconn → QueryPreparedArgs → Int) (ae : QueryPreparedArgs),
      PQsendQuery rw0 adQ ⟨b, none⟩ q = (adQ ⟨b, none⟩ q, [Ev.diag]) ∧
      PQsendQueryParams rwP adP (some ⟨b, none⟩) ap = (adP (some ⟨b, none⟩) ap, [Ev.diag]) ∧
      PQsendPrepare rwR adR (some ⟨b, none⟩) ar = (adR (some ⟨b, none⟩) ar, [Ev.diag]) ∧
      PQsendQueryPrepared rwE adE (some ⟨b, none⟩) ae = (adE (some ⟨b, none⟩) ae, [Ev.diag]) :=
  fun _ _ _ _ _ _ _ _ _ _ _ _ _ => ⟨rfl, rfl, rfl, rfl⟩

/-- Claim C7 (code_bug): the V1 mapping path does implement the
claimed allocation-failure handling: when the intermediate array
cannot be allocated, CSmapResult emits the fatal diagnostic and
returns the absent result, touching neither the connection nor the
original result (the trace holds no teardown event).  The live V2
reconstruction path of the later revision, by contrast, never checks
its descriptor allocation, which is the code bug. -/
theorem CSmapResult_allocFailure :
    ∀ (engine : List PQEXTMappablePGResult → Bool × List Nat) (res : PGresult),
      CSmapResult engine false (some res) = (none, [Ev.fatalDiag]) :=
  fun _ _ => rfl

/-- Claim C8 (confirmed): when the underlying next-result primitive
returns the end-of-stream sentinel on a connection with an Extension
State, both revisions clear the per-statement value cache exactly
once, emit a diagnostic exactly when the clear fails, and return the
sentinel. -/
theorem PQgetResult_endOfStream_clearsCache :
    ∀ (b : PGconnBase) (d : PQEXTDriver) (clearOk : Bool)
      (engA : Nat → List (Option Nat) → PQExtPgResultA)
      (engB : PQExtRequestB → PQExtPgResultB),
      PQgetResult_A clearOk engA (some ⟨b, some d⟩) none
        = (none, Ev.clearCache :: (if clearOk then [] else [Ev.diag])) ∧
      PQgetResult_B clearOk engB (some ⟨b, some d⟩) none
        = (none, Ev.clearCache :: (if clearOk then [] else [Ev.diag])) ∧
      (PQgetResult_A clearOk engA (some ⟨b, some d⟩) none).2.count Ev.clearCache = 1 ∧
      (PQgetResult_B clearOk engB (some ⟨b, some d⟩) none).2.count Ev.clearCache = 1 := by
  intro b d clearOk engA engB
  refine ⟨rfl, rfl, ?_, ?_⟩ <;> cases clearOk <;> rfl

/-- Claim C9 (confirmed): each connection-establishing call returns
exactly the underlying connection; when its status is not bad the
freshly created Extension State (the outcome of PQEXTinit keyed by the
database name) is attached, otherwise none is; a failed init still
returns the connection.  PQfinish releases an attached state via the
engine teardown before delegating to the underlying teardown, and
delegates directly when none is attached. -/
theorem connect_lifecycle :
    ∀ (ad : String → Option PGconnBase) (ini : String → Option PQEXTDriver) (s : String)
      (b : PGconnBase) (d : PQEXTDriver),
      PQconnectdbParams ad ini s
        = (ad s).map (fun c => ⟨c, if c.statusBad then none else ini c.dbName⟩) ∧
      PQconnectdb ad ini s
        = (ad s).map (fun c => ⟨c, if c.statusBad then none else ini c.dbName⟩) ∧
      PQconnectStart ad ini s
        = (ad s).map (fun c => ⟨c, if c.statusBad then none else ini c.dbName⟩) ∧
      PQfinish (some ⟨b, some d⟩) = [Ev.freeDriver, Ev.finishAdaptee] ∧
      PQfinish (some ⟨b, none⟩) = [Ev.finishAdaptee] ∧
      PQfinish none = [Ev.finishAdaptee] := by
  intro ad ini s b d
  refine ⟨?_, ?_, ?_, rfl, rfl, rfl⟩ <;>
    · cases had : ad s with
      | none => simp [PQconnectdbParams, PQconnectdb, PQconnectStart, had]
      | some c =>
        cases hc : c.statusBad <;>
          simp [PQconnectdbParams, PQconnectdb, PQconnectStart, had, hc]

/-- Claim C10 (confirmed): in both revisions, every non-sentinel
result fetched on a connection with an Extension State is produced by
the V2 reconstruction path, and no public entry point's trace ever
holds the V1 mapping event, while CSmapResult itself does emit it:
the in-place routine is unreachable through the public interface. -/
theorem CSmapResult_unreachable :
    (∀ (clearOk : Bool) (engA : Nat → List (Option Nat) → PQExtPgResultA)
       (conn : Option PGconn) (fetched : Option PGresult),
       Ev.mapV1Call ∉ (PQgetResult_A clearOk engA conn fetched).2) ∧
    (∀ (clearOk : Bool) (engB : PQExtRequestB → PQExtPgResultB)
       (conn : Option PGconn) (fetched : Option PGresult),
       Ev.mapV1Call ∉ (PQgetResult_B clearOk engB conn fetched).2) ∧
    (∀ (clearOk : Bool) (engA : Nat → List (Option Nat) → PQExtPgResultA)
       (b : PGconnBase) (d : PQEXTDriver) (res : PGresult),
       PQgetResult_A clearOk engA (some ⟨b, some d⟩) (some res)
         = CSmapResultV2_A engA (some res)) ∧
    (∀ (clearOk : Bool) (engB : PQExtRequestB → PQExtPgResultB)
       (b : PGconnBase) (d : PQEXTDriver) (res : PGresult),
       PQgetResult_B clearOk engB (some ⟨b, some d⟩) (some res)
         = CSmapResultV2_B engB (some res)) ∧
    (∀ (rw0 : String → String) (adQ : PGconn → String → Int) (conn : PGconn) (q : String),
       Ev.mapV1Call ∉ (PQsendQuery rw0 adQ conn q).2) ∧
    (∀ (rwP : QueryParamsArgs → QueryParamsArgs)
       (adP : Option PGconn → QueryParamsArgs → Int)
       (conn : Option PGconn) (ap : QueryParamsArgs),
       Ev.mapV1Call ∉ (PQsendQueryParams rwP adP conn ap).2) ∧
    (∀ (rwR : PrepareArgs → PrepareArgs) (adR : Option PGconn → PrepareArgs → Int)
       (conn : Option PGconn) (ar : PrepareArgs),
       Ev.mapV1Call ∉ (PQsendPrepare rwR adR conn ar).2) ∧
    (∀ (rwE : QueryPreparedArgs → QueryPreparedArgs)
       (adE : Option PGconn → QueryPreparedArgs → Int)
       (conn : Option PGconn) (ae : QueryPreparedArgs),
       Ev.mapV1Call ∉ (PQsendQueryPrepared rwE adE conn ae).2) ∧
    (∀ (engine : List PQEXTMappablePGResult → Bool × List Nat) (res : PGresult),
       (CSmapResult engine true (some res)).2 = [Ev.mapV1Call]) := by
  refine ⟨?_, ?_, fun _ _ _ _ _ => rfl, fun _ _ _ _ _ => rfl, ?_, ?_, ?_, ?_, fun _ _ => rfl⟩
  · intro clearOk engA conn fetched
    match conn with
    | none =>
      show Ev.mapV1Call ∉ [Ev.diag]
      decide
    | some ⟨cb, none⟩ =>
      show Ev.mapV1Call ∉ [Ev.diag]
      decide
    | some ⟨cb, some d⟩ =>
      match fetched with
      | none =>
        show Ev.mapV1Call ∉ Ev.clearCache :: (if clearOk then [] else [Ev.diag])
        cases clearOk <;> decide
      | some res =>
        show Ev.mapV1Call ∉ (CSmapResultV2_A engA (some res)).2
        rw [CSmapResultV2_A_trace]
        decide
  · intro clearOk engB conn fetched
    match conn with
    | none =>
      show Ev.mapV1Call ∉ [Ev.diag]
      decide
    | some ⟨cb, none⟩ =>
      show Ev.mapV1Call ∉ [Ev.diag]
      decide
    | some ⟨cb, some d⟩ =>
      match fetched with
      | none =>
        show Ev.mapV1Call ∉ Ev.clearCache :: (if clearOk then [] else [Ev.diag])
        cases clearOk <;> decide
      | some res =>
        show Ev.mapV1Call ∉ (CSmapResultV2_B engB (some res)).2
        rw [CSmapResultV2_B_trace]
        split <;> decide
  · intro rw0 adQ conn q
    obtain ⟨cb, st⟩ := conn
    cases st
    · show Ev.mapV1Call ∉ [Ev.diag]
      decide
    · show Ev.mapV1Call ∉ ([] : List Ev)
      decide
  · intro rwP adP conn ap
    match conn with
    | none =>
      show Ev.mapV1Call ∉ [Ev.diag]
      decide
    | some ⟨cb, none⟩ =>
      show Ev.mapV1Call ∉ [Ev.diag]
      decide
    | some ⟨cb, some d⟩ =>
      show Ev.mapV1Call ∉ ([] : List Ev)
      decide
  · intro rwR adR conn ar
    match conn with
    | none =>
      show Ev.mapV1Call ∉ [Ev.diag]
      decide
    | some ⟨cb, none⟩ =>
      show Ev.mapV1Call ∉ [Ev.diag]
      decide
    | some ⟨cb, some d⟩ =>
      show Ev.mapV1Call ∉ ([] : List Ev)
      decide
  · intro rwE adE conn ae
    match conn with
    | none =>
      show Ev.mapV1Call ∉ [Ev.diag]
      decide
    | some ⟨cb, none⟩ =>
      show Ev.mapV1Call ∉ [Ev.diag]
      decide
    | some ⟨cb, some d⟩ =>
      show Ev.mapV1Call ∉ ([] : List Ev)
      decide

/-- Claim C4 counterexample: in revision A, for a zero-column engine
answer the original result is passed through but the intermediate
mapped value set is NOT discarded (no drop event appears in the
trace), refuting the discard conjunct of the claim at this input. -/
theorem CSmapResultV2_A_zeroCols_no_discard :
    (CSmapResultV2_A engZeroA (some resOne11)).1 = some resOne11 ∧
    Ev.dropMapped ∉ (CSmapResultV2_A engZeroA (some resOne11)).2 := by
  decide

/-- Claim C4 (amended): for a V2 mapping in which the engine returns a
zero column count, PQgetResult returns the original result object
unchanged; revision B additionally drops the intermediate mapped value
set, while revision A discards nothing. -/
theorem PQgetResult_zeroCols_passthrough :
    ∀ (b : PGconnBase) (d : PQEXTDriver) (clearOk : Bool)
      (engA : Nat → List (Option Nat) → PQExtPgResultA)
      (engB : PQExtRequestB → PQExtPgResultB) (res : PGresult),
      (engA (PQnfields res) (csV2Values res)).col_num = 0 →
      (engB (csV2RequestB res)).column_names.length = 0 →
      PQgetResult_A clearOk engA (some ⟨b, some d⟩) (some res)
        = (some res, [Ev.mapV2Call]) ∧
      PQgetResult_B clearOk engB (some ⟨b, some d⟩) (some res)
        = (some res, [Ev.mapV2Call, Ev.dropMapped]) := by
  intro b d clearOk engA engB res hA hB
  constructor
  · show CSmapResultV2_A engA (some res) = (some res, [Ev.mapV2Call])
    simp [CSmapResultV2_A, hA]
  · show CSmapResultV2_B engB (some res) = (some res, [Ev.mapV2Call, Ev.dropMapped])
    simp [CSmapResultV2_B, hB]

/-- Claim C4 witness: the amended pass-through theorem applied to a
concrete connection, result and zero-column engines. -/
theorem PQgetResult_zeroCols_passthrough_witness :
    (engZeroA (PQnfields resOne11) (csV2Values resOne11)).col_num = 0 ∧
    (engZeroB (csV2RequestB resOne11)).column_names.length = 0 ∧
    (PQgetResult_A true engZeroA (some ⟨⟨false, "db"⟩, some 0⟩) (some resOne11)
        = (some resOne11, [Ev.mapV2Call]) ∧
     PQgetResult_B true engZeroB (some ⟨⟨false, "db"⟩, some 0⟩) (some resOne11)
        = (some resOne11, [Ev.mapV2Call, Ev.dropMapped])) :=
  ⟨rfl, rfl,
    PQgetResult_zeroCols_passthrough ⟨false, "db"⟩ 0 true engZeroA engZeroB resOne11 rfl rfl⟩

/-- Claim C6 (code_bug evaluation at the failing input): in revision A,
a non-zero-column reconstruction returns a fresh result object while
releasing neither the original result nor the intermediate value sets
(the trace holds only the engine-call event, the frees being commented
out); revision B does release both before returning. -/
theorem CSmapResultV2_A_no_release :
    (CSmapResultV2_A engOneA (some resOne11)).2 = [Ev.mapV2Call] ∧
    Ev.releaseResult ∉ (CSmapResultV2_A engOneA (some resOne11)).2 ∧
    Ev.dropMapped ∉ (CSmapResultV2_A engOneA (some resOne11)).2 ∧
    (CSmapResultV2_A engOneA (some resOne11)).1 ≠ some resOne11 ∧
    (CSmapResultV2_B engOneB (some resOne11)).2
      = [Ev.mapV2Call, Ev.releaseResult, Ev.dropMapped] := by
  decide

/-- Claim C3 counterexample: on a result holding one null cell, the
flat list CSmapResult passes to the engine has one entry while the
list of (pointer, length) pairs of the non-null cells described by the
claim is empty: the flat list does not consist of the non-null cells
only. -/
theorem csV1FlatList_counts_null_cells :
    (csV1FlatList resNull11).length ≠ (specV1FlatList resNull11).length := by
  decide

/-- Claim C3 (amended): the flat list passed to the engine has one
entry per cell, columns outer and rows inner, non-null cells
contributing their (pointer, length) pair and null cells a null data
pointer with their reported length; on engine success the result is
re-walked in the identical order and each non-null cell's reported
length is overwritten with the engine-supplied length at that cell's
own flat position, while the row/column shape, every null flag and
every data pointer are unchanged. -/
theorem CSmapResult_inplace_mapping :
    (∀ (res : PGresult) (col row : Nat), col < PQnfields res → row < PQntuples res →
       nthD (csV1FlatList res) (col * PQntuples res + row) ⟨none, 0⟩ =
         { data := if PQgetisnull res row col then none else some (PQgetvalue res row col),
           len := PQgetlength res row col }) ∧
    (∀ (engine : List PQEXTMappablePGResult → Bool × List Nat) (res : PGresult),
       (CSmapResult engine true (some res)).1 =
         some (if (engine (csV1FlatList res)).1 then
                 applyV1Lens res (engine (csV1FlatList res)).2
               else res)) ∧
    (∀ (res : PGresult) (lens : List Nat),
       (applyV1Lens res lens).rows.length = res.rows.length) ∧
    (∀ (res : PGresult) (lens : List Nat) (row : Nat), row < res.rows.length →
       (nthD (applyV1Lens res lens).rows row []).length = (nthD res.rows row []).length) ∧
    (∀ (res : PGresult) (lens : List Nat) (row col : Nat),
       row < res.rows.length → col < (nthD res.rows row []).length →
       cellAt (applyV1Lens res lens).rows row col =
         (if (cellAt res.rows row col).isnull then cellAt res.rows row col
          else { cellAt res.rows row col with
                 len := nthD lens (col * PQntuples res + row) (cellAt res.rows row col).len })) := by
  refine ⟨?_, fun _ _ => rfl, ?_, ?_, ?_⟩
  · intro res col row hcol hrow
    exact nthD_flatGrid _ (PQnfields res) (PQntuples res) col row _ hcol hrow
  · intro res lens
    exact length_mapFrom _ 0 _
  · intro res lens row hrow
    simp only [applyV1Lens]
    rw [nthD_mapFrom _ 0 res.rows row [] hrow]
    simp only [Nat.zero_add]
    exact length_mapFrom _ 0 _
  · intro res lens row col hrow hcol
    simp only [applyV1Lens, cellAt]
    rw [nthD_mapFrom _ 0 res.rows row [] hrow]
    simp only [Nat.zero_add]
    rw [nthD_mapFrom _ 0 (nthD res.rows row []) col nullCell hcol]
    simp only [Nat.zero_add]

/-- Claim C3 witness: the amended in-place mapping theorem applied to
a concrete 2 by 1 result with one null cell and the length list
[7, 9]. -/
theorem CSmapResult_inplace_mapping_witness :
    (0 < PQnfields resMixed ∧ 0 < PQntuples resMixed ∧
      0 < resMixed.rows.length ∧ 0 < (nthD resMixed.rows 0 []).length) ∧
    nthD (csV1FlatList resMixed) (0 * PQntuples resMixed + 0) ⟨none, 0⟩ =
      { data := if PQgetisnull resMixed 0 0 then none else some (PQgetvalue resMixed 0 0),
        len := PQgetlength resMixed 0 0 } ∧
    (applyV1Lens resMixed [7, 9]).rows.length = resMixed.rows.length ∧
    cellAt (applyV1Lens resMixed [7, 9]).rows 0 0 =
      (if (cellAt resMixed.rows 0 0).isnull then cellAt resMixed.rows 0 0
       else { cellAt resMixed.rows 0 0 with
              len := nthD [7, 9] (0 * PQntuples resMixed + 0) (cellAt resMixed.rows 0 0).len }) :=
  ⟨⟨by decide, by decide, by decide, by decide⟩,
    CSmapResult_inplace_mapping.1 resMixed 0 0 (by decide) (by decide),
    CSmapResult_inplace_mapping.2.2.1 resMixed [7, 9],
    CSmapResult_inplace_mapping.2.2.2.2 resMixed [7, 9] 0 0 (by decide) (by decide)⟩

/-- Claim C5 (confirmed): null cells of the fetched result are always
presented to the engine as null (and non-null cells as their buffer
pointer), and every null value of the engine's V2 response grid yields
a null cell in the final reconstructed result, in both revisions. -/
theorem csV2_null_cells :
    (∀ (res : PGresult) (row col : Nat), row < PQntuples res → col < PQnfields res →
       nthD (csV2Values res) (row * PQnfields res + col) none =
         (if PQgetisnull res row col then none else some (PQgetvalue res row col))) ∧
    (∀ (engB : PQExtRequestB → PQExtPgResultB) (res out : PGresult),
       (engB (csV2RequestB res)).column_names.length ≠ 0 →
       (CSmapResultV2_B engB (some res)).1 = some out →
       ∀ r c, nthD (engB (csV2RequestB res)).values
           ((engB (csV2RequestB res)).column_names.length * r + c) none = none →
         (cellAt out.rows r c).isnull = true) ∧
    (∀ (engA : Nat → List (Option Nat) → PQExtPgResultA) (res out : PGresult),
       (engA (PQnfields res) (csV2Values res)).col_num ≠ 0 →
       (CSmapResultV2_A engA (some res)).1 = some out →
       ∀ r c, nthD (engA (PQnfields res) (csV2Values res)).values
           ((engA (PQnfields res) (csV2Values res)).col_num * r + c) none = none →
         (cellAt out.rows r c).isnull = true) := by
  refine ⟨?_, ?_, ?_⟩
  · intro res row col hrow hcol
    exact nthD_flatGrid _ (PQntuples res) (PQnfields res) row col _ hrow hcol
  · intro engB res out hnz hout r c hnone
    rw [CSmapResultV2_B_some engB res hnz] at hout
    obtain rfl : out = _ := (Option.some.inj hout).symm
    refine assignRows_nullInv _ _ _ _ ?_ r c hnone
    intro i j _
    rfl
  · intro engA res out hnz hout r c hnone
    rw [CSmapResultV2_A_some engA res hnz] at hout
    obtain rfl : out = _ := (Option.some.inj hout).symm
    refine assignRows_nullInv _ _ _ _ ?_ r c hnone
    intro i j _
    rfl

/-- Claim C5 witness: the null-preservation theorem applied to a
concrete null input cell, and to concrete engine responses carrying a
null value, for both revisions. -/
theorem csV2_null_cells_witness :
    nthD (csV2Values resNull11) (0 * PQnfields resNull11 + 0) none =
      (if PQgetisnull resNull11 0 0 then none else some (PQgetvalue resNull11 0 0)) ∧
    (cellAt (⟨2, [blankDesc "b"], []⟩ : PGresult).rows 0 0).isnull = true ∧
    (cellAt (⟨2, [blankDesc "a"], [[⟨false, 9, 2⟩]]⟩ : PGresult).rows 1 0).isnull = true :=
  ⟨csV2_null_cells.1 resNull11 0 0 (by decide) (by decide),
    csV2_null_cells.2.1 engNullB resNull11 ⟨2, [blankDesc "b"], []⟩
      (by decide) (by decide) 0 0 (by decide),
    csV2_null_cells.2.2 engNullRowA resMixed ⟨2, [blankDesc "a"], [[⟨false, 9, 2⟩]]⟩
      (by decide) (by decide) 1 0 (by decide)⟩

/-- Claim C1 counterexample: in revision A, for a 2-row result whose
descriptor carries table id 7 and an engine answer of one column with
a null value for the second row, the reconstructed result keeps the
original descriptor (table id 7 instead of the unset 0 the claim
demands) and has row count 1 instead of the original 2. -/
theorem CSmapResultV2_A_claim_false :
    ¬ ((CSmapResultV2_A engNullRowA (some resTwoRows)).1.map
        (fun out => (out.attDescs.map PGresAttDesc.tableid, out.rows.length))
      = some ([0], 2)) := by
  decide

/-- Claim C1 (amended): for a V2 reconstruction returning N > 0 columns
(with a well-formed row-major response grid), the new result keeps the
original overall status and has exactly N column descriptors — in
revision B named by the engine's returned names with all other fields
unset, in revision A copied unchanged from the original result's first
N descriptors — and, provided every original row receives at least one
non-null engine cell, a row count equal to the original row count. -/
theorem CSmapResultV2_reconstruction :
    (∀ (engB : PQExtRequestB → PQExtPgResultB) (res : PGresult),
       (engB (csV2RequestB res)).column_names.length ≠ 0 →
       (engB (csV2RequestB res)).values.length
         = PQntuples res * (engB (csV2RequestB res)).column_names.length →
       (∀ r, r < PQntuples res →
          ∃ c, c < (engB (csV2RequestB res)).column_names.length ∧
            (nthD (engB (csV2RequestB res)).values
              ((engB (csV2RequestB res)).column_names.length * r + c) none).isSome) →
       (CSmapResultV2_B engB (some res)).1.map
           (fun out => (out.resultStatus, out.attDescs, out.rows.length))
         = some (res.resultStatus,
                 (engB (csV2RequestB res)).column_names.map blankDesc,
                 PQntuples res)) ∧
    (∀ (engA : Nat → List (Option Nat) → PQExtPgResultA) (res : PGresult),
       (engA (PQnfields res) (csV2Values res)).col_num ≠ 0 →
       (engA (PQnfields res) (csV2Values res)).col_num ≤ PQnfields res →
       (engA (PQnfields res) (csV2Values res)).values.length
         = PQntuples res * (engA (PQnfields res) (csV2Values res)).col_num →
       (∀ r, r < PQntuples res →
          ∃ c, c < (engA (PQnfields res) (csV2Values res)).col_num ∧
            (nthD (engA (PQnfields res) (csV2Values res)).values
              ((engA (PQnfields res) (csV2Values res)).col_num * r + c) none).isSome) →
       (CSmapResultV2_A engA (some res)).1.map
           (fun out => (out.resultStatus, out.attDescs, out.rows.length))
         = some (res.resultStatus,
                 res.attDescs.take (engA (PQnfields res) (csV2Values res)).col_num,
                 PQntuples res)) := by
  constructor
  · intro engB res hnz hlen hall
    rw [CSmapResultV2_B_some engB res hnz]
    have h1 := assignRows_status (engB (csV2RequestB res)).values
      (engB (csV2RequestB res)).column_names.length (PQntuples res)
      (PQsetResultAttrs (PQmakeEmptyPGresult res.resultStatus)
        (engB (csV2RequestB res)).column_names.length
        ((engB (csV2RequestB res)).column_names.map blankDesc))
    have h2 := assignRows_attDescs (engB (csV2RequestB res)).values
      (engB (csV2RequestB res)).column_names.length (PQntuples res)
      (PQsetResultAttrs (PQmakeEmptyPGresult res.resultStatus)
        (engB (csV2RequestB res)).column_names.length
        ((engB (csV2RequestB res)).column_names.map blankDesc))
    have h3 := assignRows_rows_length (engB (csV2RequestB res)).values
      (engB (csV2RequestB res)).column_names.length (PQntuples res)
      (PQsetResultAttrs (PQmakeEmptyPGresult res.resultStatus)
        (engB (csV2RequestB res)).column_names.length
        ((engB (csV2RequestB res)).column_names.map blankDesc)) rfl hall
    have htake : ((engB (csV2RequestB res)).column_names.map blankDesc).take
        (engB (csV2RequestB res)).column_names.length
        = (engB (csV2RequestB res)).column_names.map blankDesc := by
      have hm : (engB (csV2RequestB res)).column_names.length
          = ((engB (csV2RequestB res)).column_names.map blankDesc).length := by
        simp
      rw [hm, take_length_eq]
    simp only [Option.map_some']
    rw [h1, h2, h3]
    simp only [PQsetResultAttrs, PQmakeEmptyPGresult]
    rw [htake]
  · intro engA res hnz hle hlen hall
    rw [CSmapResultV2_A_some engA res hnz]
    have h1 := assignRows_status (engA (PQnfields res) (csV2Values res)).values
      (engA (PQnfields res) (csV2Values res)).col_num (PQntuples res)
      (PQsetResultAttrs (PQmakeEmptyPGresult res.resultStatus)
        (engA (PQnfields res) (csV2Values res)).col_num res.attDescs)
    have h2 := assignRows_attDescs (engA (PQnfields res) (csV2Values res)).values
      (engA (PQnfields res) (csV2Values res)).col_num (PQntuples res)
      (PQsetResultAttrs (PQmakeEmptyPGresult res.resultStatus)
        (engA (PQnfields res) (csV2Values res)).col_num res.attDescs)
    have h3 := assignRows_rows_length (engA (PQnfields res) (csV2Values res)).values
      (engA (PQnfields res) (csV2Values res)).col_num (PQntuples res)
      (PQsetResultAttrs (PQmakeEmptyPGresult res.resultStatus)
        (engA (PQnfields res) (csV2Values res)).col_num res.attDescs) rfl hall
    simp only [Option.map_some']
    rw [h1, h2, h3]
    simp only [PQsetResultAttrs, PQmakeEmptyPGresult]

/-- Claim C1 witness: the amended reconstruction theorem applied to a
concrete 1 by 1 result and one-column engine answers, for both
revisions. -/
theorem CSmapResultV2_reconstruction_witness :
    ((engOneB (csV2RequestB resOne11)).column_names.length ≠ 0 ∧
      (engOneA (PQnfields resOne11) (csV2Values resOne11)).col_num ≤ PQnfields resOne11) ∧
    (CSmapResultV2_B engOneB (some resOne11)).1.map
        (fun out => (out.resultStatus, out.attDescs, out.rows.length))
      = some (resOne11.resultStatus,
              (engOneB (csV2RequestB resOne11)).column_names.map blankDesc,
              PQntuples resOne11) ∧
    (CSmapResultV2_A engOneA (some resOne11)).1.map
        (fun out => (out.resultStatus, out.attDescs, out.rows.length))
      = some (resOne11.resultStatus,
              resOne11.attDescs.take (engOneA (PQnfields resOne11) (csV2Values resOne11)).col_num,
              PQntuples resOne11) :=
  ⟨⟨by decide, by decide⟩,
    CSmapResultV2_reconstruction.1 engOneB resOne11 (by decide) (by decide) (by decide),
    CSmapResultV2_reconstruction.2 engOneA resOne11 (by decide) (by decide) (by decide)
      (by decide)⟩

end PQExt
